import Mathlib

/-!
Shallow embedding of the data-loading, normalization and filtering logic of
the my-report map pages, translated from src/js/loadPlaces.js and
src/js/map-loader.js (whose older revision also appears as
src/unnamed/part_000).  Machine floats never undergo arithmetic in this
code — coordinates are only parsed from decimal literals and tested for
truthiness — so JS numbers are modelled as exact decimals plus NaN.  String
primitives are reimplemented structurally on character lists so that all
definitions evaluate inside the kernel.
-/

/-- Result of a JS numeric conversion: NaN or a finite decimal value,
kept as `units / 10 ^ scale`.  The repository only parses decimal
coordinate literals and tests them for truthiness, so no arithmetic and
no rounding ever occur; the unnormalized decimal pair is an exact model
and keeps every definition kernel-computable. -/
inductive JsNum
  | nan
  | val (units : ℤ) (scale : ℕ)
  deriving DecidableEq, Repr

/-- The rational value of a JS number, `none` for NaN (used to state
properties; the code itself never does arithmetic on coordinates). -/
def JsNum.toRat : JsNum → Option ℚ
  | JsNum.nan => none
  | JsNum.val u s => some ((u : ℚ) / 10 ^ s)

/-- Truthiness of a JS number: NaN and 0 are falsy. -/
def truthyNum : JsNum → Bool
  | JsNum.nan => false
  | JsNum.val u _ => if u = 0 then false else true

/-- A JS scalar value as it can appear in a place record field. -/
inductive JsVal
  | undef
  | jnull
  | num (n : JsNum)
  | str (s : String)
  | boolean (b : Bool)
  deriving DecidableEq, Repr

/-- JS truthiness of a scalar value. -/
def truthyV : JsVal → Bool
  | JsVal.undef => false
  | JsVal.jnull => false
  | JsVal.num n => truthyNum n
  | JsVal.str s => if s = "" then false else true
  | JsVal.boolean b => b

/-- The JS short-circuit `a || b` on scalar values. -/
def jsOr (a b : JsVal) : JsVal := if truthyV a then a else b

/-- Whitespace trim on a character list (JS `trim`). -/
def wsTrim (cs : List Char) : List Char :=
  ((cs.dropWhile Char.isWhitespace).reverse.dropWhile Char.isWhitespace).reverse

/-- JS `String.prototype.trim`. -/
def trimS (s : String) : String := String.mk (wsTrim s.toList)

/-- JS `String.prototype.toLowerCase` (the data at hand is ASCII). -/
def lowerS (s : String) : String := String.mk (s.toList.map Char.toLower)

/-- Split at every occurrence of one character, JS `split(c)` (so the
empty string yields one empty cell). -/
def splitCharAux (c : Char) : List Char → List Char → List String
  | [], cur => [String.mk cur.reverse]
  | x :: xs, cur =>
    if x = c then String.mk cur.reverse :: splitCharAux c xs []
    else splitCharAux c xs (x :: cur)

/-- Split a string at every occurrence of a character. -/
def splitChar (c : Char) (s : String) : List String := splitCharAux c s.toList []

/-- Replace every adjacent pair `a b` by `out` (used for `\r\n` → `\n`
and for unescaping doubled quotes). -/
def replacePair (a b out : Char) : List Char → List Char
  | [] => []
  | [x] => [x]
  | x :: y :: rest =>
    if x = a && y = b then out :: replacePair a b out rest
    else x :: replacePair a b out (y :: rest)

/-- Digits to a natural number, most significant first. -/
def digitsToNat (cs : List Char) : ℕ :=
  cs.foldl (fun n c => n * 10 + (c.toNat - '0'.toNat)) 0

/-- Longest prefix of decimal digits, and the rest. -/
def takeDigits : List Char → List Char × List Char
  | [] => ([], [])
  | c :: cs =>
    if c.isDigit then
      let r := takeDigits cs
      (c :: r.1, r.2)
    else ([], c :: cs)

/-- Fold an exponent into the decimal pair `units / 10 ^ scale`. -/
def expApply (u : ℤ) (s : ℕ) (e : ℤ) : ℤ × ℕ :=
  if 0 ≤ e then (u * 10 ^ e.toNat, s) else (u, s + (-e).toNat)

/-- Optional exponent part of a JS numeric literal.  `restWithE` is the
input including the already-seen `e`/`E`, returned unconsumed when no
digits follow (JS `parseFloat` then stops before the `e`). -/
def expPart (u : ℤ) (s : ℕ) (restWithE afterE : List Char) : (ℤ × ℕ) × List Char :=
  let sr : ℤ × List Char :=
    match afterE with
    | '-' :: r => (-1, r)
    | '+' :: r => (1, r)
    | _ => (1, afterE)
  let dpr := takeDigits sr.2
  if dpr.1.isEmpty then ((u, s), restWithE)
  else (expApply u s (sr.1 * (digitsToNat dpr.1 : ℤ)), dpr.2)

/-- Parse a decimal literal prefix (sign, digits, fraction, exponent) the
way JS numeric parsing does; `none` when no digits are found, otherwise
the decimal pair `units / 10 ^ scale` and the unconsumed rest. -/
def parseDec (cs : List Char) : Option ((ℤ × ℕ) × List Char) :=
  let sr : ℤ × List Char :=
    match cs with
    | '-' :: r => (-1, r)
    | '+' :: r => (1, r)
    | _ => (1, cs)
  let ipr := takeDigits sr.2
  let fpr : List Char × List Char :=
    match ipr.2 with
    | '.' :: r => takeDigits r
    | _ => ([], ipr.2)
  if ipr.1.isEmpty && fpr.1.isEmpty then none
  else
    let u : ℤ := sr.1 * (digitsToNat (ipr.1 ++ fpr.1) : ℤ)
    let sc : ℕ := fpr.1.length
    match fpr.2 with
    | 'e' :: r => some (expPart u sc ('e' :: r) r)
    | 'E' :: r => some (expPart u sc ('E' :: r) r)
    | _ => some ((u, sc), fpr.2)

/-- JS `parseFloat`: skip leading whitespace, parse the longest decimal
prefix, NaN when there is none. -/
def parseFloat (s : String) : JsNum :=
  match parseDec (s.toList.dropWhile Char.isWhitespace) with
  | none => JsNum.nan
  | some pr => JsNum.val pr.1.1 pr.1.2

/-- JS `Number()` on a string: the whole trimmed string must be a decimal
literal; empty trims to 0.  (Hex/Infinity forms never occur in this
repository's data and are not modelled.) -/
def strToNumber (s : String) : JsNum :=
  let t := wsTrim s.toList
  if t.isEmpty then JsNum.val 0 0
  else
    match parseDec t with
    | some (us, []) => JsNum.val us.1 us.2
    | _ => JsNum.nan

/-- JS `Number()` on a scalar value. -/
def toNumber : JsVal → JsNum
  | JsVal.undef => JsNum.nan
  | JsVal.jnull => JsNum.val 0 0
  | JsVal.num n => n
  | JsVal.str s => strToNumber s
  | JsVal.boolean b => JsNum.val (if b then 1 else 0) 0

/-- Replace the first comma by a dot: JS `value.replace(',', '.')`
(map-loader.js line 187, the decimal-separator fixup — a string pattern
replaces the first match only). -/
def replaceFirstCommaAux : List Char → List Char
  | [] => []
  | c :: cs => if c = ',' then '.' :: cs else c :: replaceFirstCommaAux cs

/-- Replace the first comma of a string by a dot. -/
def replaceFirstComma (s : String) : String := String.mk (replaceFirstCommaAux s.toList)

/-- Split a CSV source into lines, as the JS `split(/\r?\n/)` does. -/
def splitLines (s : String) : List String :=
  splitChar '\n' (String.mk (replacePair '\r' '\n' '\n' s.toList))

/-- Number of double-quote characters of a string. -/
def quoteCount (s : String) : ℕ := s.toList.countP (fun c => c = '"')

/-- Worker for the quote-aware cell split: `seen` counts quotes already
passed, a comma splits when the quotes remaining after it are even. -/
def splitSmartAux (total : ℕ) : List Char → ℕ → List Char → List String
  | [], _, cur => [String.mk cur.reverse]
  | c :: cs, seen, cur =>
    if c = ',' && (total - seen) % 2 = 0 then
      String.mk cur.reverse :: splitSmartAux total cs seen []
    else if c = '"' then splitSmartAux total cs (seen + 1) (c :: cur)
    else splitSmartAux total cs seen (c :: cur)

/-- The quote-aware cell split of map-loader.js line 176: the row is split
at every comma that is followed by an even number of double quotes
(regex lookahead), which keeps commas inside quoted cells. -/
def splitSmart (s : String) : List String :=
  splitSmartAux (quoteCount s) s.toList 0 []

/-- Cell cleanup of map-loader.js lines 177-180: trim, strip surrounding
double quotes, unescape doubled quotes. -/
def cleanCell (cell : String) : String :=
  let val := wsTrim cell.toList
  if val.head? = some '"' && val.getLast? = some '"' then
    String.mk (replacePair '"' '"' '"' (val.drop 1).dropLast)
  else String.mk val

/-- A place record as built by the CSV parser (and consumed by the
map-loader filter engines).  `none` fields model absent JS properties;
`other` collects columns with non-special headers. -/
structure CsvPlace where
  name : Option String := none
  type? : Option String := none
  lat : Option JsNum := none
  lng : Option JsNum := none
  tags : Option (List String) := none
  other : List (String × Option String) := []
  deriving DecidableEq, Repr

/-- Truthiness of a possibly-absent numeric field (`place.lat && place.lng`). -/
def truthyN : Option JsNum → Bool
  | some n => truthyNum n
  | none => false

/-- Set the lat or lng field (the `header === 'lat' || header === 'lng'`
branch of map-loader.js line 186). -/
def setNum (p : CsvPlace) (h : String) (n : JsNum) : CsvPlace :=
  if h = "lat" then { p with lat := some n } else { p with lng := some n }

/-- Update an association list in place, appending when the key is new. -/
def updateAssoc (l : List (String × Option String)) (k : String) (v : Option String) :
    List (String × Option String) :=
  match l with
  | [] => [(k, v)]
  | (k0, v0) :: rest => if k0 = k then (k, v) :: rest else (k0, v0) :: updateAssoc rest k v

/-- Assignment `place[header] = value` for a header with no special
handling (map-loader.js line 193). -/
def setField (p : CsvPlace) (h : String) (v : Option String) : CsvPlace :=
  if h = "name" then { p with name := v } else { p with other := updateAssoc p.other h v }

/-- The per-row loop body of parseCSV (map-loader.js lines 183-195):
walk the headers with the running column index; `row.get? i` models
`row[index]`, which is `undefined` past the row's end.  The lat/lng
branch calls `.replace` on the value, which in JS throws a TypeError
when the value is `undefined`; this is the `.error` case. -/
def buildPlaceAux (row : List String) : List String → ℕ → CsvPlace → Except Unit CsvPlace
  | [], _, p => Except.ok p
  | h :: rest, i, p =>
    let value : Option String := row.get? i
    if h = "lat" ∨ h = "lng" then
      match value with
      | none => Except.error ()
      | some s => buildPlaceAux row rest (i + 1) (setNum p h (parseFloat (replaceFirstComma s)))
    else if h = "tags" then
      let tv : List String :=
        match value with
        | some s => if s = "" then [] else (splitChar ',' s).map trimS
        | none => []
      buildPlaceAux row rest (i + 1) { p with tags := some tv }
    else if h = "type" then
      let tv : String :=
        match value with
        | some s => if s = "" then "" else trimS (lowerS s)
        | none => ""
      buildPlaceAux row rest (i + 1) { p with type? := some tv }
    else
      buildPlaceAux row rest (i + 1) (setField p h value)

/-- Build one place record from a header list and a split row. -/
def buildPlace (headers row : List String) : Except Unit CsvPlace :=
  buildPlaceAux row headers 0 {}

/-- The data-row loop of parseCSV (map-loader.js lines 172-197): skip
blank lines, split and clean cells, build the record, and keep it only
when both coordinates are truthy (line 196). -/
def parseRows (headers : List String) : List String → List CsvPlace → Except Unit (List CsvPlace)
  | [], acc => Except.ok acc
  | line :: rest, acc =>
    if trimS line = "" then parseRows headers rest acc
    else
      match buildPlace headers ((splitSmart line).map cleanCell) with
      | Except.error e => Except.error e
      | Except.ok place =>
        parseRows headers rest
          (if truthyN place.lat && truthyN place.lng then acc ++ [place] else acc)

/-- parseCSV of map-loader.js lines 166-199: header row split on plain
commas and lowercased, then the data rows. -/
def parseCSV (csvText : String) : Except Unit (List CsvPlace) :=
  let lines := splitLines csvText
  let headers := (splitChar ',' (lines.headD "")).map (fun h => lowerS (trimS h))
  parseRows headers lines.tail []

/-- The tags field of a JSON place record: absent, an array, or a plain
string (loadPlaces.js handles both shapes). -/
inductive TagsVal
  | undef
  | arr (l : List String)
  | str (s : String)
  deriving DecidableEq, Repr

/-- Truthiness of a tags field (`p.tags ?`): arrays are always truthy,
a string only when non-empty. -/
def truthyT : TagsVal → Bool
  | TagsVal.undef => false
  | TagsVal.arr _ => true
  | TagsVal.str s => if s = "" then false else true

/-- A JSON place record as handled by loadPlaces.js.  `none`/`undef`
fields model absent JS properties; `extra` carries any further
properties, which `Object.assign` copies through untouched. -/
structure Item where
  name? : Option String := none
  type? : Option String := none
  lat : JsVal := JsVal.undef
  lng : JsVal := JsVal.undef
  latitude : JsVal := JsVal.undef
  longitude : JsVal := JsVal.undef
  tags : TagsVal := TagsVal.undef
  page? : Option String := none
  link? : Option String := none
  extra : List (String × JsVal) := []
  deriving DecidableEq, Repr

/-- A top-level JSON value: an array of records or anything else.  A
parsed JSON document is a list of key/value entries in insertion order
(JS object keys are unique; the model is used under that assumption). -/
inductive JField
  | arr (l : List Item)
  | nonArray
  deriving DecidableEq, Repr

/-- Lookup modelling `Array.isArray(data[k])`: the key's array value,
or `none` when the key is absent or not array-valued. -/
def getArr (d : List (String × JField)) (k : String) : Option (List Item) :=
  match d.lookup k with
  | some (JField.arr l) => some l
  | _ => none

/-- The key's array value, defaulted to the empty array. -/
def getArrD (d : List (String × JField)) (k : String) : List Item :=
  (getArr d k).getD []

/-- JS `k.replace(/s$/, '')`: strip one trailing `s`. -/
def stripS (k : String) : String :=
  if k.toList.getLast? = some 's' then String.mk k.toList.dropLast else k

/-- The inferred type for a legacy key (loadPlaces.js line 56):
`null` (modelled as `none`) for the key `places`, else the key with a
trailing `s` stripped. -/
def typeForKey (k : String) : Option String :=
  if k = "places" then none else some (stripS k)

/-- One record of `Object.assign({}, it, { type: it.type || fallback })`
(loadPlaces.js lines 57 and 63): every field is copied and `type` is
overwritten with the item's own type when truthy, else the fallback. -/
def assignType (it : Item) (fallback : Option String) : Item :=
  { it with type? :=
      match it.type? with
      | some s => if s = "" then fallback else some s
      | none => fallback }

/-- The legacy-key pass of the normalizer (loadPlaces.js lines 54-59):
fold the four recognized keys in order, appending each array mapped
through the type assignment. -/
def legacyFold (d : List (String × JField)) : List Item :=
  ["brunchs", "pizzerias", "restaurants", "places"].foldl
    (fun acc k =>
      match getArr d k with
      | some l => acc ++ l.map (fun it => assignType it (typeForKey k))
      | none => acc)
    []

/-- The fallback pass of the normalizer (loadPlaces.js lines 60-66):
scan every top-level key in order and fold non-empty arrays of records
in, using the key itself as type fallback.  (The `typeof data[k][0] ===
'object'` test always holds here because array elements are records in
the model.) -/
def fallbackScan (d : List (String × JField)) : List Item :=
  d.foldl
    (fun acc kv =>
      match kv.2 with
      | JField.arr l => if l.isEmpty then acc else acc ++ l.map (fun it => assignType it (some kv.1))
      | JField.nonArray => acc)
    []

/-- The normalizer of loadPlaces.js lines 49-67: a generic `places`
array is used verbatim; otherwise the legacy keys are folded, and only
when they produce nothing does the fallback scan run. -/
def normalizePlaces (d : List (String × JField)) : List Item :=
  match getArr d "places" with
  | some l => l
  | none =>
    let legacy := legacyFold d
    if legacy.isEmpty then fallbackScan d else legacy

/-- The effective latitude of a record, `Number(p.lat || p.latitude)`
(loadPlaces.js line 73). -/
def effLat (p : Item) : JsNum := toNumber (jsOr p.lat p.latitude)

/-- The effective longitude of a record, `Number(p.lng || p.longitude)`
(loadPlaces.js line 74). -/
def effLng (p : Item) : JsNum := toNumber (jsOr p.lng p.longitude)

/-- The render guard of loadPlaces.js line 75 (`if (!lat || !lng)
return;`): a record gets a marker and a list entry exactly when both
effective coordinates are truthy numbers. -/
def renderKeep (p : Item) : Bool := truthyNum (effLat p) && truthyNum (effLng p)

/-- NaN test on a JS number. -/
def isNaN : JsNum → Bool
  | JsNum.nan => true
  | JsNum.val _ _ => false

/-- A record has missing or non-numeric coordinates when an effective
coordinate converts to NaN (absent fields convert to NaN, as do
non-numeric strings). -/
def coordsInvalid (p : Item) : Bool := isNaN (effLat p) || isNaN (effLng p)

/-- The toggle state read by setupMapFilters.applyFilters (loadPlaces.js
lines 171-178); the defaults are the `?? true` fallbacks and inactive
tag buttons. -/
structure MapFilterState where
  showPz : Bool := true
  showRest : Bool := true
  showFf : Bool := true
  showCafe : Bool := true
  brunchOnly : Bool := false
  vgOnly : Bool := false
  babyOnly : Bool := false
  deriving DecidableEq, Repr

/-- Split at every `,`, `#` or `;` (the JS `split(/[,#;]/)`). -/
def splitDelimsAux : List Char → List Char → List String
  | [], cur => [String.mk cur.reverse]
  | c :: cs, cur =>
    if c = ',' ∨ c = '#' ∨ c = ';' then String.mk cur.reverse :: splitDelimsAux cs []
    else splitDelimsAux cs (c :: cur)

/-- Split a string at every `,`, `#` or `;`. -/
def splitDelims (s : String) : List String := splitDelimsAux s.toList []

/-- The tag list of a record as computed on loadPlaces.js line 187:
arrays are lowercased elementwise, strings are lowercased then split on
`,`/`#`/`;` and trimmed, absent tags give the empty list. -/
def itemTags (p : Item) : List String :=
  match p.tags with
  | TagsVal.undef => []
  | TagsVal.arr l => l.map lowerS
  | TagsVal.str s =>
    if s = "" then []
    else (splitDelims (lowerS s)).map trimS

/-- The filter predicate of setupMapFilters.applyFilters (loadPlaces.js
lines 180-193), including the mojibake literal of line 185 exactly as it
appears in the source. -/
def mapFilterPred (st : MapFilterState) (p : Item) : Bool :=
  let t := lowerS (match p.type? with | some s => if s = "" then "" else s | none => "")
  if t = "pizzeria" && !st.showPz then false
  else if t = "restaurant" && !st.showRest then false
  else if t = "fast-food" && !st.showFf then false
  else if t = "cafÃ©" && !st.showCafe then false
  else
    let tags := itemTags p
    if st.brunchOnly && !(tags.contains "brunch") then false
    else if st.vgOnly && !(tags.contains "vg") && !(tags.contains "#vg") then false
    else if st.babyOnly && !(tags.contains "babyfriendly") && !(tags.contains "baby")
        && !(tags.contains "#babyfriendly") then false
    else true

/-- setupMapFilters.applyFilters (loadPlaces.js lines 180-193): the
filtered list handed back to loadPlaces for re-rendering. -/
def setupMapFilters_applyFilters (st : MapFilterState) (allPlaces : List Item) : List Item :=
  allPlaces.filter (mapFilterPred st)

/-- The filter predicate of setupFilters.applyFilters (map-loader.js
lines 348-353): exact type membership, and each active tag present in
the lowercased tag list. -/
def setupFilters_pred (selectedTypes activeTags : List String) (place : CsvPlace) : Bool :=
  let typeMatch :=
    match place.type? with
    | some t => selectedTypes.contains t
    | none => false
  let placeTags := (place.tags.getD []).map lowerS
  let tagMatch := activeTags.all (fun tag => placeTags.contains (lowerS tag))
  typeMatch && tagMatch

/-- setupFilters.applyFilters (map-loader.js lines 339-355), the filter
engine of the current map-loader revision. -/
def setupFilters_applyFilters (selectedTypes activeTags : List String)
    (allPlaces : List CsvPlace) : List CsvPlace :=
  allPlaces.filter (setupFilters_pred selectedTypes activeTags)

/-- The filter predicate written from the words of spec section 4.2:
keep a place when its type is in the selected-type set and every active
tag is present in its tag set, tags compared case-insensitively. -/
def specFilterPred (selectedTypes activeTags : List String) (place : CsvPlace) : Bool :=
  (match place.type? with
   | some t => selectedTypes.contains t
   | none => false)
  && activeTags.all (fun tag => ((place.tags.getD []).map lowerS).contains (lowerS tag))

/-- The filter engine as the spec describes it, for comparison with the
implemented engines. -/
def specFilter (selectedTypes activeTags : List String)
    (places : List CsvPlace) : List CsvPlace :=
  places.filter (specFilterPred selectedTypes activeTags)

/-- The older applyFilters of map-loader.js lines 86-96: an empty
selected-type list passes every type, and the membership test compares
`place.type + 's'` (JS turns an undefined type into the string
"undefined" before concatenating). -/
def applyFilters_v1 (selectedTypes activeTags : List String)
    (pagePlaces : List CsvPlace) : List CsvPlace :=
  pagePlaces.filter (fun place =>
    let typeMatch :=
      selectedTypes.isEmpty || selectedTypes.contains ((place.type?.getD "undefined") ++ "s")
    let tagMatch :=
      activeTags.all (fun tag => ((place.tags.getD []).map lowerS).contains (lowerS tag))
    typeMatch && tagMatch)

/-- What the list container shows after an operation: left alone (no
container), the empty-state message, the rendered list, or the static
load-failure message `Impossible de charger les adresses.`. -/
inductive UiContent (α : Type)
  | untouched
  | emptyMsg
  | contentList (l : List α)
  | errorMsg
  deriving DecidableEq, Repr

/-- Effect summary of one loadPlaces call (loadPlaces.js lines 43-132):
how often fetch ran, how often the error was caught and logged, what the
list container shows, and the returned or rethrown outcome. -/
structure LoadResult where
  fetchCalls : ℕ
  caught : ℕ
  logged : ℕ
  ui : UiContent Item
  outcome : Except String (List Item)
  deriving Repr

/-- One run of the loadPlaces data path.  `fetched` is the combined
fetch + JSON-parse outcome (both failure modes reach the same catch);
on success the data is normalized and the guarded records are rendered,
on failure the single catch logs once, writes the static message when a
container exists, and rethrows. -/
def loadPlacesRun (fetched : Except String (List (String × JField)))
    (hasContainer : Bool) : LoadResult :=
  match fetched with
  | Except.ok d =>
    let places := normalizePlaces d
    let rendered := places.filter renderKeep
    { fetchCalls := 1, caught := 0, logged := 0,
      ui := if hasContainer then
              (if rendered.isEmpty then UiContent.emptyMsg else UiContent.contentList rendered)
            else UiContent.untouched,
      outcome := Except.ok places }
  | Except.error e =>
    { fetchCalls := 1, caught := 1, logged := 1,
      ui := if hasContainer then UiContent.errorMsg else UiContent.untouched,
      outcome := Except.error e }

/-- Effect summary of one fetchData call of the current map-loader
revision (map-loader.js lines 201-225). -/
structure FetchDataResult where
  fetchCalls : ℕ
  caught : ℕ
  logged : ℕ
  ui : UiContent CsvPlace
  allPlaces : Option (List CsvPlace)
  deriving DecidableEq, Repr

/-- One run of fetchData on a CSV source (no dataFilter configured).
A fetch failure or a parseCSV throw both land in the single catch:
logged once, static message when a container exists, and `allPlaces`
keeps its initial empty state (modelled as `none`: no place list was
produced). -/
def fetchDataRun (fetched : Except String String) (hasContainer : Bool) : FetchDataResult :=
  match fetched with
  | Except.error _ =>
    { fetchCalls := 1, caught := 1, logged := 1,
      ui := if hasContainer then UiContent.errorMsg else UiContent.untouched,
      allPlaces := none }
  | Except.ok text =>
    match parseCSV text with
    | Except.error _ =>
      { fetchCalls := 1, caught := 1, logged := 1,
        ui := if hasContainer then UiContent.errorMsg else UiContent.untouched,
        allPlaces := none }
    | Except.ok pls =>
      let rendered := pls.filter (fun p => truthyN p.lat && truthyN p.lng)
      { fetchCalls := 1, caught := 0, logged := 0,
        ui := if hasContainer then
                (if rendered.isEmpty then UiContent.emptyMsg else UiContent.contentList rendered)
              else UiContent.untouched,
        allPlaces := some pls }

/-- Assigning a present fallback type always populates the type field. -/
theorem assignType_isSome (it : Item) (f : String) :
    (assignType it (some f)).type?.isSome = true := by
  unfold assignType
  cases it.type? with
  | none => simp
  | some s => by_cases hs : s = "" <;> simp [hs]

/-- The legacy pass, spelled out: when no generic `places` array exists,
it is the concatenation of the three category arrays, each mapped
through the type assignment with the stripped key. -/
theorem legacyFold_eq (d : List (String × JField)) (h : getArr d "places" = none) :
    legacyFold d =
      (getArrD d "brunchs").map (fun it => assignType it (some "brunch"))
        ++ (getArrD d "pizzerias").map (fun it => assignType it (some "pizzeria"))
        ++ (getArrD d "restaurants").map (fun it => assignType it (some "restaurant")) := by
  have tb : typeForKey "brunchs" = some "brunch" := rfl
  have tp : typeForKey "pizzerias" = some "pizzeria" := rfl
  have tr : typeForKey "restaurants" = some "restaurant" := rfl
  unfold legacyFold getArrD
  simp only [List.foldl_cons, List.foldl_nil]
  rcases hb : getArr d "brunchs" with _ | lb <;>
    rcases hp : getArr d "pizzerias" with _ | lp <;>
      rcases hr : getArr d "restaurants" with _ | lr <;>
        simp [h, hb, hp, hr, tb, tp, tr]

/-- C5: for every input object in which `places` is an array,
normalization returns exactly that array unchanged — same records, same
order, no fields added or modified. -/
theorem claim5_places_verbatim (d : List (String × JField)) (l : List Item)
    (h : getArr d "places" = some l) : normalizePlaces d = l := by
  unfold normalizePlaces
  rw [h]

theorem claim5_witness :
    normalizePlaces [("places", JField.arr [{ name? := some "X" }])] = [{ name? := some "X" }] :=
  claim5_places_verbatim _ _ rfl

/-- C3: the CSV parser treats commas inside double-quoted cells as field
content, accepts both `.` and `,` as the decimal separator for the lat
and lng columns, and parses the row `"A","restaurant","48.58","7.75",
"veg,baby"` under header `name,type,lat,lng,tags` to the record
`{name: "A", type: "restaurant", lat: 48.58, lng: 7.75,
tags: ["veg", "baby"]}`. -/
theorem claim3_csv_quoted_row :
    parseCSV "name,type,lat,lng,tags\n\"A\",\"restaurant\",\"48.58\",\"7.75\",\"veg,baby\"" =
      Except.ok [{ name := some "A", type? := some "restaurant",
                   lat := some (JsNum.val 4858 2), lng := some (JsNum.val 775 2),
                   tags := some ["veg", "baby"] }]
    ∧ (JsNum.val 4858 2).toRat = some (48.58 : ℚ)
    ∧ (JsNum.val 775 2).toRat = some (7.75 : ℚ)
    ∧ parseCSV "name,lat,lng\nB,\"48,58\",7.75" =
      Except.ok [{ name := some "B",
                   lat := some (JsNum.val 4858 2), lng := some (JsNum.val 775 2) }] := by
  refine ⟨rfl, ?_, ?_, rfl⟩ <;> norm_num [JsNum.toRat]

/-- C10: the CSV parser is not total on well-formed header input — a
non-empty data row with fewer cells than the header row, whose missing
cell is the lat or lng column, reaches the numeric-conversion branch
with an absent value and raises an error instead of returning a place
list (the row "A" has 1 cell against 5 headers). -/
theorem claim10_short_row_error :
    ((splitSmart "A").map cleanCell).length = 1
    ∧ (splitChar ',' "name,type,lat,lng,tags").length = 5
    ∧ parseCSV "name,type,lat,lng,tags\nA" = Except.error () :=
  ⟨rfl, rfl, rfl⟩

/-- C7: on any fetch or parse failure during data loading, the error is
caught exactly once, logged, and replaced in the UI by the static
load-failure message when a list container exists; the operation runs a
single fetch (no retry) and the result carries no place list (loadPlaces
rethrows the error, fetchData leaves its place list unset). -/
theorem claim7_error_handling (e : String) (hc : Bool) :
    (loadPlacesRun (Except.error e) hc).caught = 1
    ∧ (loadPlacesRun (Except.error e) hc).logged = 1
    ∧ (loadPlacesRun (Except.error e) hc).fetchCalls = 1
    ∧ (loadPlacesRun (Except.error e) hc).ui
        = (if hc then UiContent.errorMsg else UiContent.untouched)
    ∧ (loadPlacesRun (Except.error e) hc).outcome = Except.error e
    ∧ (fetchDataRun (Except.error e) hc).caught = 1
    ∧ (fetchDataRun (Except.error e) hc).logged = 1
    ∧ (fetchDataRun (Except.error e) hc).fetchCalls = 1
    ∧ (fetchDataRun (Except.error e) hc).ui
        = (if hc then UiContent.errorMsg else UiContent.untouched)
    ∧ (fetchDataRun (Except.error e) hc).allPlaces = none
    ∧ (fetchDataRun (Except.ok "name,type,lat,lng,tags\nA") hc).caught = 1
    ∧ (fetchDataRun (Except.ok "name,type,lat,lng,tags\nA") hc).logged = 1
    ∧ (fetchDataRun (Except.ok "name,type,lat,lng,tags\nA") hc).allPlaces = none :=
  ⟨rfl, rfl, rfl, rfl, rfl, rfl, rfl, rfl, rfl, rfl, rfl, rfl, rfl⟩

/-- C8: filtering is idempotent — for every place list and fixed toggle
state, applying the current filter engine to its own output returns the
same list as applying it once. -/
theorem claim8_filter_idempotent (selectedTypes activeTags : List String)
    (pls : List CsvPlace) :
    setupFilters_applyFilters selectedTypes activeTags
        (setupFilters_applyFilters selectedTypes activeTags pls)
      = setupFilters_applyFilters selectedTypes activeTags pls := by
  unfold setupFilters_applyFilters
  rw [List.filter_filter]
  simp

/-- The per-item type rule exactly as claim C1 words it: the item's own
`type` whenever the field is present, else the stripped key. -/
def specLegacyType (it : Item) (k : String) : Option String :=
  match it.type? with
  | some s => some s
  | none => some (stripS k)

/-- An item whose `type` field is present but empty. -/
def itemEmptyType : Item := { name? := some "E", type? := some "" }

/-- A legacy document with one brunch entry whose `type` is the empty
string. -/
def dC1 : List (String × JField) := [("brunchs", JField.arr [itemEmptyType])]

/-- C1 counterexample: for the legacy input `{brunchs: [{type: ""}]}`
the normalizer emits type "brunch", while the claim's rule (the item's
own `type` whenever present) demands the empty string — the JS `||`
discards a present-but-empty type. -/
theorem claim1_counterexample :
    (normalizePlaces dC1).map Item.type? = [some "brunch"]
    ∧ [specLegacyType itemEmptyType "brunchs"] = [some ""]
    ∧ ¬ (normalizePlaces dC1).map Item.type? = [specLegacyType itemEmptyType "brunchs"] :=
  ⟨rfl, rfl, by decide⟩

/-- C1 (amended): for every legacy-format input (no generic `places`
array, at least one non-empty category array), the normalizer's output
is exactly the concatenation of the category arrays in order, each item
mapped once with `type` set to its own type when present and non-empty,
otherwise the source key with a trailing plural `s` stripped — so every
item of every category array appears exactly once. -/
theorem claim1_legacy_items_once (d : List (String × JField))
    (hp : getArr d "places" = none)
    (hne : getArrD d "brunchs" ++ getArrD d "pizzerias" ++ getArrD d "restaurants" ≠ []) :
    normalizePlaces d =
      (getArrD d "brunchs").map (fun it => assignType it (some "brunch"))
        ++ (getArrD d "pizzerias").map (fun it => assignType it (some "pizzeria"))
        ++ (getArrD d "restaurants").map (fun it => assignType it (some "restaurant")) := by
  have hleg := legacyFold_eq d hp
  unfold normalizePlaces
  rw [hp]
  have hnotempty : (legacyFold d).isEmpty = false := by
    rw [hleg]
    rcases h : ((getArrD d "brunchs").map (fun it => assignType it (some "brunch"))
        ++ (getArrD d "pizzerias").map (fun it => assignType it (some "pizzeria"))
        ++ (getArrD d "restaurants").map (fun it => assignType it (some "restaurant"))).isEmpty
      with _ | _
    · rfl
    · exfalso
      apply hne
      rw [List.isEmpty_iff] at h
      rcases List.append_eq_nil.mp h with ⟨h12, h3⟩
      rcases List.append_eq_nil.mp h12 with ⟨h1, h2⟩
      rw [List.map_eq_nil_iff] at h1 h2 h3
      rw [h1, h2, h3]
      rfl
  simp only [hnotempty, Bool.false_eq_true, if_false]
  exact hleg

/-- A two-array legacy document used to instantiate C1. -/
def dC1w : List (String × JField) :=
  [("brunchs", JField.arr [{ name? := some "B1" }]),
   ("pizzerias", JField.arr [{ name? := some "P1", type? := some "special" }])]

theorem claim1_witness :
    normalizePlaces dC1w =
      (getArrD dC1w "brunchs").map (fun it => assignType it (some "brunch"))
        ++ (getArrD dC1w "pizzerias").map (fun it => assignType it (some "pizzeria"))
        ++ (getArrD dC1w "restaurants").map (fun it => assignType it (some "restaurant")) :=
  claim1_legacy_items_once dC1w rfl (by decide)

/-- A record with no coordinate fields at all. -/
def pNoCoords : Item := { name? := some "Ghost", type? := some "restaurant" }

/-- C2 counterexample: with default toggles, the record without
coordinates appears in the output of the setupMapFilters filter engine,
although its coordinates are missing (both convert to NaN) — the filter
tests only type and tags. -/
theorem claim2_counterexample :
    setupMapFilters_applyFilters {} [pNoCoords] = [pNoCoords]
    ∧ coordsInvalid pNoCoords = true :=
  ⟨rfl, rfl⟩

/-- C2 (amended): a record whose coordinates are missing or non-numeric
(an effective coordinate converts to NaN) can pass the filter engine,
but it is never rendered: the render guard rejects it, so it is in no
rendered sublist of any filter output — no marker, no list entry. -/
theorem claim2_invalid_coords_not_rendered (st : MapFilterState) (pls : List Item)
    (p : Item) (h : coordsInvalid p = true) :
    renderKeep p = false
    ∧ p ∉ (setupMapFilters_applyFilters st pls).filter renderKeep := by
  have hrk : renderKeep p = false := by
    unfold coordsInvalid at h
    unfold renderKeep
    cases hl : effLat p with
    | nan => rfl
    | val u sc =>
      cases hg : effLng p with
      | nan => simp [truthyNum]
      | val u2 sc2 =>
        exfalso
        rw [hl, hg] at h
        simp [isNaN] at h
  refine ⟨hrk, ?_⟩
  intro hm
  have hk := (List.mem_filter.mp hm).2
  rw [hrk] at hk
  cases hk

theorem claim2_witness :
    renderKeep pNoCoords = false
    ∧ pNoCoords ∉ (setupMapFilters_applyFilters {} [pNoCoords]).filter renderKeep :=
  claim2_invalid_coords_not_rendered {} [pNoCoords] pNoCoords rfl

/-- A well-formed restaurant record used to instantiate C4. -/
def pRest : CsvPlace :=
  { name := some "R", type? := some "restaurant",
    lat := some (JsNum.val 485 1), lng := some (JsNum.val 775 2) }

/-- C4 counterexample: with an empty selected-type set the older
applyFilters engine keeps a record whose type is in no selected set,
while the spec's filter returns the empty subsequence. -/
theorem claim4_counterexample :
    applyFilters_v1 [] [] [pRest] = [pRest]
    ∧ specFilter [] [] [pRest] = [] :=
  ⟨rfl, rfl⟩

/-- C4 (amended): the current filter engine (setupFilters.applyFilters)
computes exactly the spec's filter — the subsequence of places whose
type is in the selected-type set and for which every active tag is
present in the place's tag set, tags compared case-insensitively; the
older applyFilters engine deviates by passing every type when the
selected set is empty. -/
theorem claim4_filter_exact (selectedTypes activeTags : List String)
    (pls : List CsvPlace) :
    setupFilters_applyFilters selectedTypes activeTags pls
        = specFilter selectedTypes activeTags pls
    ∧ (setupFilters_applyFilters selectedTypes activeTags pls).Sublist pls :=
  ⟨rfl, List.filter_sublist pls⟩

/-- Every record the fallback scan adds has its type populated. -/
theorem fallbackScan_aux (d : List (String × JField)) :
    ∀ acc : List Item, (∀ it ∈ acc, it.type?.isSome = true) →
      ∀ it ∈ d.foldl
        (fun acc kv =>
          match kv.2 with
          | JField.arr l =>
            if l.isEmpty then acc else acc ++ l.map (fun it => assignType it (some kv.1))
          | JField.nonArray => acc)
        acc, it.type?.isSome = true := by
  induction d with
  | nil => intro acc hacc it hit; exact hacc it hit
  | cons kv rest ih =>
    intro acc hacc it hit
    rw [List.foldl_cons] at hit
    refine ih _ ?_ it hit
    rcases kv with ⟨k, f⟩
    cases f with
    | arr l =>
      by_cases hl : l.isEmpty
      · simpa [hl] using hacc
      · simp only [hl, Bool.false_eq_true, if_false]
        intro x hx
        rcases List.mem_append.mp hx with h1 | h2
        · exact hacc x h1
        · rcases List.mem_map.mp h2 with ⟨y, _, rfl⟩
          exact assignType_isSome y k
    | nonArray => exact hacc

/-- Every record of the fallback scan has its type populated. -/
theorem fallbackScan_type_isSome (d : List (String × JField)) :
    ∀ it ∈ fallbackScan d, it.type?.isSome = true := by
  intro it hit
  exact fallbackScan_aux d [] (by intro x hx; cases hx) it hit

/-- The lat/lng setter leaves the type field alone. -/
theorem setNum_type (p : CsvPlace) (h : String) (n : JsNum) :
    (setNum p h n).type? = p.type? := by
  unfold setNum
  split <;> rfl

/-- The generic setter leaves the type field alone. -/
theorem setField_type (p : CsvPlace) (h : String) (v : Option String) :
    (setField p h v).type? = p.type? := by
  unfold setField
  split <;> rfl

/-- Once a `type` header occurs (or the type field is already set), the
row builder produces a record with a populated type. -/
theorem buildPlaceAux_type (row : List String) :
    ∀ (hs : List String) (i : ℕ) (p res : CsvPlace),
      buildPlaceAux row hs i p = Except.ok res →
      ("type" ∈ hs ∨ p.type?.isSome = true) → res.type?.isSome = true := by
  intro hs
  induction hs with
  | nil =>
    intro i p res h hty
    cases h
    rcases hty with h' | h'
    · cases h'
    · exact h'
  | cons hd rest ih =>
    intro i p res h hty
    rw [buildPlaceAux] at h
    by_cases hll : hd = "lat" ∨ hd = "lng"
    · rw [if_pos hll] at h
      cases hv : row.get? i with
      | none => rw [hv] at h; cases h
      | some sv =>
        rw [hv] at h
        refine ih _ _ _ h (Or.imp ?_ ?_ hty)
        · intro hmem
          rcases List.mem_cons.mp hmem with heq | hmem'
          · exfalso; rcases hll with h1 | h1 <;> rw [h1] at heq <;> exact absurd heq (by decide)
          · exact hmem'
        · intro hsome
          rw [setNum_type]; exact hsome
    · rw [if_neg hll] at h
      by_cases htags : hd = "tags"
      · rw [if_pos htags] at h
        refine ih _ _ _ h (Or.imp ?_ ?_ hty)
        · intro hmem
          rcases List.mem_cons.mp hmem with heq | hmem'
          · exfalso; rw [htags] at heq; exact absurd heq (by decide)
          · exact hmem'
        · intro hsome; exact hsome
      · rw [if_neg htags] at h
        by_cases htype : hd = "type"
        · rw [if_pos htype] at h
          refine ih _ _ _ h (Or.inr rfl)
        · rw [if_neg htype] at h
          refine ih _ _ _ h (Or.imp ?_ ?_ hty)
          · intro hmem
            rcases List.mem_cons.mp hmem with heq | hmem'
            · exfalso; exact htype heq.symm
            · exact hmem'
          · intro hsome
            rw [setField_type]; exact hsome

/-- C6 counterexample: a record passed through the verbatim `places`
branch keeps `type` absent — it is neither populated nor defaulted to
the empty string. -/
theorem claim6_counterexample :
    (normalizePlaces [("places", JField.arr [{ name? := some "N" }])]).map Item.type? = [none]
    ∧ (none : Option String) ≠ some "" :=
  ⟨rfl, by decide⟩

/-- C6 (amended): every record produced by the legacy-key or fallback
normalization paths has its `type` field populated, and a CSV row gets a
populated `type` (possibly the empty string) whenever a `type` column
exists; records passed through verbatim from a generic `places` array
are unchanged and may lack `type` entirely. -/
theorem claim6_type_populated :
    (∀ d : List (String × JField), getArr d "places" = none →
        ∀ it ∈ normalizePlaces d, it.type?.isSome = true)
    ∧ (∀ headers row : List String, ∀ p : CsvPlace,
        "type" ∈ headers → buildPlace headers row = Except.ok p →
        p.type?.isSome = true) := by
  constructor
  · intro d hp it hit
    unfold normalizePlaces at hit
    rw [hp] at hit
    by_cases hleg : (legacyFold d).isEmpty
    · simp only [hleg, if_true] at hit
      exact fallbackScan_type_isSome d it hit
    · simp only [hleg, Bool.false_eq_true, if_false] at hit
      rw [legacyFold_eq d hp] at hit
      rcases List.mem_append.mp hit with h12 | h3
      · rcases List.mem_append.mp h12 with h1 | h2
        · rcases List.mem_map.mp h1 with ⟨y, _, rfl⟩
          exact assignType_isSome y "brunch"
        · rcases List.mem_map.mp h2 with ⟨y, _, rfl⟩
          exact assignType_isSome y "pizzeria"
      · rcases List.mem_map.mp h3 with ⟨y, _, rfl⟩
        exact assignType_isSome y "restaurant"
  · intro headers row p hmem hbuild
    exact buildPlaceAux_type row headers 0 {} p hbuild (Or.inl hmem)

/-- A one-brunch legacy document used to instantiate C6. -/
def dC6w : List (String × JField) := [("brunchs", JField.arr [{ name? := some "B1" }])]

/-- The single record dC6w normalizes to. -/
def itC6w : Item := { name? := some "B1", type? := some "brunch" }

theorem claim6_witness :
    itC6w.type?.isSome = true
    ∧ ({ type? := some "restaurant" } : CsvPlace).type?.isSome = true :=
  ⟨claim6_type_populated.1 dC6w rfl itC6w (by decide),
   claim6_type_populated.2 ["type"] ["restaurant"] { type? := some "restaurant" }
     (by decide) rfl⟩

/-- The row loop only ever appends records passing the coordinate
truthiness guard. -/
theorem parseRows_inv (headers : List String) :
    ∀ (lines : List String) (acc out : List CsvPlace),
      (∀ p ∈ acc, (truthyN p.lat && truthyN p.lng) = true) →
      parseRows headers lines acc = Except.ok out →
      ∀ p ∈ out, (truthyN p.lat && truthyN p.lng) = true := by
  intro lines
  induction lines with
  | nil =>
    intro acc out hacc h
    cases h
    exact hacc
  | cons line rest ih =>
    intro acc out hacc h
    rw [parseRows] at h
    by_cases hblank : trimS line = ""
    · rw [if_pos hblank] at h
      exact ih _ _ hacc h
    · rw [if_neg hblank] at h
      cases hb : buildPlace headers ((splitSmart line).map cleanCell) with
      | error e => rw [hb] at h; cases h
      | ok place =>
        rw [hb] at h
        refine ih _ _ ?_ h
        by_cases hg : (truthyN place.lat && truthyN place.lng) = true
        · simp only [hg, if_true]
          intro p hp
          rcases List.mem_append.mp hp with h1 | h2
          · exact hacc p h1
          · rcases List.mem_singleton.mp h2 with rfl
            exact hg
        · simp only [hg, if_false]
          exact hacc

/-- C9: a CSV row whose lat or lng column parses to 0 is excluded from
the parser's output even though 0 is a valid coordinate (every parsed
record has truthy — non-zero, non-NaN — coordinates, and the concrete
zero-latitude row yields the empty list); and in JSON loading a lat
equal to 0 is falsy, so the `latitude` field is used instead, and the
record is skipped from rendering when both fields are 0 or absent. -/
theorem claim9_zero_coordinates :
    (∀ csvText pls, parseCSV csvText = Except.ok pls →
        ∀ p ∈ pls, (truthyN p.lat && truthyN p.lng) = true)
    ∧ parseCSV "name,lat,lng\nZero,0,7.75" = Except.ok []
    ∧ (∀ v : JsVal, jsOr (JsVal.num (JsNum.val 0 0)) v = v)
    ∧ effLat { lat := JsVal.num (JsNum.val 0 0),
               latitude := JsVal.num (JsNum.val 4858 2) } = JsNum.val 4858 2
    ∧ renderKeep { lat := JsVal.num (JsNum.val 0 0),
                   latitude := JsVal.num (JsNum.val 0 0),
                   lng := JsVal.num (JsNum.val 775 2) } = false
    ∧ renderKeep { lng := JsVal.num (JsNum.val 775 2) } = false := by
  refine ⟨?_, rfl, ?_, rfl, rfl, rfl⟩
  · intro csvText pls h p hp
    exact parseRows_inv _ _ _ _ (by intro q hq; cases hq) h p hp
  · intro v; rfl

/-- The single record of the C9 witness CSV. -/
def pC9w : CsvPlace :=
  { name := some "A", lat := some (JsNum.val 485 1), lng := some (JsNum.val 775 2) }

theorem claim9_witness :
    (truthyN pC9w.lat && truthyN pC9w.lng) = true :=
  claim9_zero_coordinates.1 "name,lat,lng\nA,48.5,7.75" [pC9w] rfl pC9w (by decide)
